import Mathlib

/-!
Shallow embedding of the visual-auth-gateway backend (src/backend/server.js):
the in-memory session table, challenge issuance (start-auth), the verification
state machine (verify-auth), the periodic expiry sweep, and the shuffled-grid
generator.  Conventions of the embedding:

* Timestamps are naturals (milliseconds, as Date.now()).
* The SHA-256 digest of a pipe-joined pattern is modelled by the joined string
  itself (the digest is injective up to hash collisions, so digest equality is
  join equality); the stored hex constant for user U123 is documented in the
  source as the digest of the joined demo secret, and is modelled accordingly.
* crypto.randomInt draws are modelled by a stream of naturals reduced modulo
  the requested bound; crypto.randomUUID is modelled by a session-id parameter.
* The while loop filling the grid carries explicit fuel; running out of fuel
  models non-termination, and the empty-pool randomInt(0,0) exception is
  modelled as a failure as well (both yield none, never a grid).
-/

/-- Models hashVisualPattern (server.js line 111): the SHA-256 digest of the
pattern joined with a pipe separator, the digest modelled as the join itself. -/
def hashVisualPattern (pattern : List String) : String :=
  String.intercalate "|" pattern

/-- Session timeout, 60 seconds in milliseconds (server.js line 76). -/
def SESSION_TIMEOUT_MS : Nat := 60000

/-- The demo secret pattern for user U123 (server.js line 208). -/
def secretPatternU123 : List String := ["🍎", "🎧", "🔥"]

/-- A record of the user registry (server.js lines 80-87). -/
structure UserRecord where
  userId : String
  secretHash : String
  deriving DecidableEq

/-- The user registry USER_DATABASE (server.js lines 80-87); its single entry
stores the digest of the joined demo secret. -/
def USER_DATABASE (uid : String) : Option UserRecord :=
  if uid = "U123" then some ⟨"U123", hashVisualPattern secretPatternU123⟩ else none

/-- The decoy symbol pool (server.js lines 90-93). -/
def EMOJI_POOL : List String :=
  ["🍎", "🎧", "🔥", "🚀", "⭐", "🔒", "🔑", "💎", "🎯", "🌟", "⚡", "🔐"]

/-- A session record (server.js lines 213-223). -/
structure Session where
  sessionId : String
  userId : String
  secretHash : String
  grid : List String
  createdAt : Nat
  expiresAt : Nat
  used : Bool
  attempts : Nat
  maxAttempts : Nat
  deriving DecidableEq

/-- The session Map, keyed by session id (server.js line 73). -/
abbrev SessionTable := List (String × Session)

/-- Map.get: the session stored under a key, if any. -/
def getS : SessionTable → String → Option Session
  | [], _ => none
  | (k', s) :: r, k => if k' = k then some s else getS r k

/-- Map.set: store a session under a key, replacing an existing entry. -/
def setS : SessionTable → String → Session → SessionTable
  | [], k, v => [(k, v)]
  | (k', s) :: r, k, v => if k' = k then (k, v) :: r else (k', s) :: setS r k v

/-- Map.delete: remove the entry stored under a key. -/
def delS : SessionTable → String → SessionTable
  | [], _ => []
  | (k', s) :: r, k => if k' = k then delS r k else (k', s) :: delS r k

/-- cleanupExpiredSessions (server.js lines 158-166): remove every entry whose
expiry lies strictly before the current time. -/
def cleanupExpiredSessions : SessionTable → Nat → SessionTable
  | [], _ => []
  | (k, s) :: r, now =>
    if now > s.expiresAt then cleanupExpiredSessions r now
    else (k, s) :: cleanupExpiredSessions r now

/-- One Fisher-Yates swap of positions i and j (server.js line 125). -/
def swapL (l : List String) (i j : Nat) : List String :=
  (l.set i (l.getD j "")).set j (l.getD i "")

/-- The Fisher-Yates loop of shuffleArray (server.js lines 123-126): the first
argument of the stream rho models successive crypto.randomInt draws, k is the
draw counter, and the loop index runs down to 1. -/
def fyGo (rho : Nat → Nat) (k : Nat) : Nat → List String → List String
  | 0, l => l
  | i + 1, l => fyGo rho (k + 1) i (swapL l (i + 1) (rho k % (i + 2)))

/-- shuffleArray (server.js lines 121-128): Fisher-Yates from the last index
down to 1, with randomInt(0, i+1) modelled as rho k % (i+1+1). -/
def shuffleArray (rho : Nat → Nat) (array : List String) : List String :=
  fyGo rho 0 (array.length - 1) array

/-- The decoy-filling while loop of generateShuffledGrid (server.js lines
143-149), with explicit fuel: pick a random element of the available pool,
push it unless already present, until the grid reaches 9 symbols.  Fuel
exhaustion models non-termination; an empty available pool models the
crypto.randomInt(0, 0) exception; both produce none. -/
def fillGrid (available : List String) (rho : Nat → Nat) : Nat → Nat → List String → Option (List String)
  | _, 0, _ => none
  | i, fuel + 1, grid =>
    if 9 ≤ grid.length then some grid
    else if available.length = 0 then none
    else if available.getD (rho i % available.length) "" ∈ grid then
      fillGrid available rho (i + 1) fuel grid
    else
      fillGrid available rho (i + 1) fuel
        (grid ++ [available.getD (rho i % available.length) ""])

/-- generateShuffledGrid (server.js lines 136-153), abstracted over the decoy
pool: start from the secret pattern, fill with decoys drawn from the pool
minus the secret symbols, then shuffle. -/
def generateShuffledGridWith (pool secret : List String) (rho1 rho2 : Nat → Nat)
    (fuel : Nat) : Option (List String) :=
  (fillGrid (pool.filter (fun e => decide (e ∉ secret))) rho1 0 fuel secret).map
    (shuffleArray rho2)

/-- generateShuffledGrid as the source calls it, over the fixed EMOJI_POOL. -/
def generateShuffledGrid (secret : List String) (rho1 rho2 : Nat → Nat)
    (fuel : Nat) : Option (List String) :=
  generateShuffledGridWith EMOJI_POOL secret rho1 rho2 fuel

/-- Response of the start-auth handler. -/
inductive StartResult where
  | ok (session_id : String) (grid : List String) (expires_in : Nat)
  | userNotFound
  | invalidRequest
  deriving DecidableEq

/-- The start-auth handler (server.js lines 182-245): validate user_id, look
the user up, generate a grid for the hard-coded demo secret, and insert a new
session with attempts 0, used false, and a 60-second expiry.  The fresh
session id (crypto.randomUUID) is the sid parameter; the whole call yields
none when grid generation does not terminate. -/
def startChallenge (t : SessionTable) (user_id sid : String) (now : Nat)
    (rho1 rho2 : Nat → Nat) (fuel : Nat) : Option (StartResult × SessionTable) :=
  if user_id = "" then some (.invalidRequest, t)
  else
    match USER_DATABASE user_id with
    | none => some (.userNotFound, t)
    | some user =>
      match generateShuffledGrid secretPatternU123 rho1 rho2 fuel with
      | none => none
      | some grid =>
        let s : Session :=
          { sessionId := sid, userId := user_id, secretHash := user.secretHash,
            grid := grid, createdAt := now, expiresAt := now + SESSION_TIMEOUT_MS,
            used := false, attempts := 0, maxAttempts := 3 }
        some (.ok sid grid (SESSION_TIMEOUT_MS / 1000), setS t sid s)

/-- The machine-readable error kinds of failing verifications (server.js
verify-auth handler, 401 responses). -/
inductive VError where
  | INVALID_SESSION
  | SESSION_USED
  | SESSION_EXPIRED
  | MAX_ATTEMPTS
  | INVALID_PATTERN
  deriving DecidableEq

/-- Response of the verify-auth handler: a 200 PASS with the user id, a 401
FAIL with an error kind and an optional attempts_remaining count, or a 400
INVALID_REQUEST carrying no result verdict. -/
inductive VerifyResult where
  | pass (user_id : String)
  | fail (error : VError) (attemptsRemaining : Option Nat)
  | invalidRequest
  deriving DecidableEq

/-- The verify-auth handler (server.js lines 254-371): validate the request,
look the session up, reject used, expired, or attempt-capped sessions
(deleting them), otherwise consume one attempt and compare digests; a match
deletes the session and passes, a mismatch either deletes it (cap reached) or
stores the incremented attempt count. -/
def verify (t : SessionTable) (session_id : String) (input : List String)
    (now : Nat) : VerifyResult × SessionTable :=
  if session_id = "" then (.invalidRequest, t)
  else if input.length ≠ 3 then (.invalidRequest, t)
  else
    match getS t session_id with
    | none => (.fail .INVALID_SESSION none, t)
    | some s =>
      if s.used then (.fail .SESSION_USED none, delS t session_id)
      else if now > s.expiresAt then (.fail .SESSION_EXPIRED none, delS t session_id)
      else if s.attempts ≥ s.maxAttempts then (.fail .MAX_ATTEMPTS none, delS t session_id)
      else
        if hashVisualPattern input = s.secretHash then
          (.pass s.userId, delS t session_id)
        else if s.attempts + 1 ≥ s.maxAttempts then
          (.fail .MAX_ATTEMPTS none, delS t session_id)
        else
          (.fail .INVALID_PATTERN (some (s.maxAttempts - (s.attempts + 1))),
           setS t session_id { s with attempts := s.attempts + 1 })

/-- The table after a start-auth call (unchanged when the call yields none). -/
def startStep (t : SessionTable) (uid sid : String) (now : Nat)
    (rho1 rho2 : Nat → Nat) (fuel : Nat) : SessionTable :=
  match startChallenge t uid sid now rho1 rho2 fuel with
  | some (_, t') => t'
  | none => t

/-- The session tables reachable from the empty table by any sequence of
start-auth calls, verify-auth calls, and expiry sweeps. -/
inductive Reachable : SessionTable → Prop where
  | init : Reachable []
  | start (t : SessionTable) (uid sid : String) (now : Nat) (rho1 rho2 : Nat → Nat)
      (fuel : Nat) : Reachable t → Reachable (startStep t uid sid now rho1 rho2 fuel)
  | step (t : SessionTable) (sid : String) (input : List String) (now : Nat) :
      Reachable t → Reachable (verify t sid input now).2
  | reap (t : SessionTable) (now : Nat) : Reachable t →
      Reachable (cleanupExpiredSessions t now)

/-! ### Basic lemmas about the session table -/

theorem getS_setS_self (t : SessionTable) (k : String) (v : Session) :
    getS (setS t k v) k = some v := by
  induction t with
  | nil => simp [setS, getS]
  | cons p r ih =>
    obtain ⟨k', s⟩ := p
    by_cases h : k' = k
    · simp [setS, h, getS]
    · simp [setS, h, getS, ih]

theorem getS_setS_ne (t : SessionTable) (k k' : String) (v : Session)
    (h : k' ≠ k) : getS (setS t k v) k' = getS t k' := by
  have h2 : k ≠ k' := Ne.symm h
  induction t with
  | nil => simp [setS, getS, h2]
  | cons p r ih =>
    obtain ⟨k0, s⟩ := p
    by_cases h0 : k0 = k
    · subst h0
      simp [setS, getS, h2]
    · simp only [setS, if_neg h0, getS]
      by_cases h1 : k0 = k'
      · simp [h1]
      · simp [h1, ih]

theorem getS_delS_self (t : SessionTable) (k : String) :
    getS (delS t k) k = none := by
  induction t with
  | nil => simp [delS, getS]
  | cons p r ih =>
    obtain ⟨k', s⟩ := p
    by_cases h : k' = k
    · simp [delS, h, ih]
    · simp [delS, h, getS, ih]

theorem getS_delS_ne (t : SessionTable) (k k' : String) (h : k' ≠ k) :
    getS (delS t k) k' = getS t k' := by
  have h2 : k ≠ k' := Ne.symm h
  induction t with
  | nil => simp [delS]
  | cons p r ih =>
    obtain ⟨k0, s⟩ := p
    by_cases h0 : k0 = k
    · subst h0
      simp [delS, getS, h2, ih]
    · simp only [delS, if_neg h0, getS]
      by_cases h1 : k0 = k'
      · simp [h1]
      · simp [h1, ih]

theorem length_setS_of_fresh (t : SessionTable) (k : String) (v : Session)
    (h : getS t k = none) : (setS t k v).length = t.length + 1 := by
  induction t with
  | nil => simp [setS]
  | cons p r ih =>
    obtain ⟨k', s⟩ := p
    by_cases h0 : k' = k
    · simp [getS, h0] at h
    · simp only [getS, if_neg h0] at h
      simp [setS, h0, ih h]

theorem getS_mem (t : SessionTable) (k : String) (s : Session)
    (h : getS t k = some s) : (k, s) ∈ t := by
  induction t with
  | nil => simp [getS] at h
  | cons p r ih =>
    obtain ⟨k', s'⟩ := p
    by_cases h0 : k' = k
    · subst h0
      simp [getS] at h
      simp [h]
    · simp only [getS, if_neg h0] at h
      exact List.mem_cons_of_mem _ (ih h)

theorem mem_setS (t : SessionTable) (k : String) (v : Session) (p : String × Session)
    (h : p ∈ setS t k v) : p = (k, v) ∨ p ∈ t := by
  induction t with
  | nil => simp [setS] at h; simp [h]
  | cons q r ih =>
    obtain ⟨k', s⟩ := q
    by_cases h0 : k' = k
    · simp only [setS, if_pos h0] at h
      rcases List.mem_cons.1 h with h | h
      · exact Or.inl h
      · exact Or.inr (List.mem_cons_of_mem _ h)
    · simp only [setS, if_neg h0] at h
      rcases List.mem_cons.1 h with h | h
      · exact Or.inr (List.mem_cons.2 (Or.inl h))
      · rcases ih h with h | h
        · exact Or.inl h
        · exact Or.inr (List.mem_cons_of_mem _ h)

theorem mem_delS (t : SessionTable) (k : String) (p : String × Session)
    (h : p ∈ delS t k) : p ∈ t := by
  induction t with
  | nil => simp [delS] at h
  | cons q r ih =>
    obtain ⟨k', s⟩ := q
    by_cases h0 : k' = k
    · simp only [delS, if_pos h0] at h
      exact List.mem_cons_of_mem _ (ih h)
    · simp only [delS, if_neg h0] at h
      rcases List.mem_cons.1 h with h | h
      · exact List.mem_cons.2 (Or.inl h)
      · exact List.mem_cons_of_mem _ (ih h)

theorem mem_cleanup (t : SessionTable) (now : Nat) (p : String × Session)
    (h : p ∈ cleanupExpiredSessions t now) : p ∈ t := by
  induction t with
  | nil => simp [cleanupExpiredSessions] at h
  | cons q r ih =>
    obtain ⟨k', s⟩ := q
    by_cases h0 : now > s.expiresAt
    · simp only [cleanupExpiredSessions, if_pos h0] at h
      exact List.mem_cons_of_mem _ (ih h)
    · simp only [cleanupExpiredSessions, if_neg h0] at h
      rcases List.mem_cons.1 h with h | h
      · exact List.mem_cons.2 (Or.inl h)
      · exact List.mem_cons_of_mem _ (ih h)

theorem getS_cleanup_none (t : SessionTable) (now : Nat) (k : String)
    (h : getS t k = none) : getS (cleanupExpiredSessions t now) k = none := by
  induction t with
  | nil => simp [cleanupExpiredSessions, getS]
  | cons q r ih =>
    obtain ⟨k', s⟩ := q
    by_cases h0 : k' = k
    · simp [getS, h0] at h
    · simp only [getS, if_neg h0] at h
      by_cases h1 : now > s.expiresAt
      · simp [cleanupExpiredSessions, if_pos h1, ih h]
      · simp [cleanupExpiredSessions, if_neg h1, getS, h0, ih h]

/-! ### The reachable-state invariant: live sessions are unused and below the
attempt cap -/

/-- Every session the handlers ever store satisfies this: it has not been
consumed, sits strictly below the attempt cap, and carries the fixed cap 3. -/
def GoodSession (s : Session) : Prop :=
  s.used = false ∧ s.attempts < s.maxAttempts ∧ s.maxAttempts = 3

/-- All sessions of the table are good. -/
def TableInv (t : SessionTable) : Prop := ∀ p ∈ t, GoodSession p.2

/-- The state left by a verify call is the old table, a deletion, or an
attempt-count update of a live session that stays below the cap. -/
theorem verify_state_cases (t : SessionTable) (sid : String) (input : List String)
    (now : Nat) :
    (verify t sid input now).2 = t ∨ (verify t sid input now).2 = delS t sid ∨
    ∃ s : Session, getS t sid = some s ∧ s.used = false ∧
      s.attempts + 1 < s.maxAttempts ∧
      (verify t sid input now).2 = setS t sid { s with attempts := s.attempts + 1 } := by
  unfold verify
  by_cases h1 : sid = ""
  · simp [h1]
  by_cases h2 : input.length ≠ 3
  · simp [h1, h2]
  cases hq : getS t sid with
  | none => simp [h1, h2, hq]
  | some s =>
    simp only [if_neg h1, if_neg h2, hq]
    split_ifs with hu he hc hm hc2
    · simp
    · simp
    · simp
    · simp
    · simp
    · refine Or.inr (Or.inr ⟨s, rfl, ?_, ?_, rfl⟩)
      · simpa using hu
      · omega

theorem tableInv_delS (t : SessionTable) (k : String) (hI : TableInv t) : TableInv (delS t k) :=
  fun p hp => hI p (mem_delS t k p hp)

theorem inv_setS (t : SessionTable) (k : String) (v : Session) (hI : TableInv t)
    (hv : GoodSession v) : TableInv (setS t k v) := by
  intro p hp
  rcases mem_setS t k v p hp with h | h
  · rw [h]; exact hv
  · exact hI p h

theorem inv_cleanup (t : SessionTable) (now : Nat) (hI : TableInv t) :
    TableInv (cleanupExpiredSessions t now) :=
  fun p hp => hI p (mem_cleanup t now p hp)

theorem inv_verify (t : SessionTable) (sid : String) (input : List String)
    (now : Nat) (hI : TableInv t) : TableInv (verify t sid input now).2 := by
  rcases verify_state_cases t sid input now with h | h | ⟨s, hq, hu, hc, h⟩
  · rw [h]; exact hI
  · rw [h]; exact tableInv_delS t sid hI
  · rw [h]
    have hg := hI (sid, s) (getS_mem t sid s hq)
    exact inv_setS t sid _ hI ⟨hu, by show s.attempts + 1 < s.maxAttempts; omega, hg.2.2⟩

theorem inv_start (t : SessionTable) (uid sid : String) (now : Nat)
    (rho1 rho2 : Nat → Nat) (fuel : Nat) (hI : TableInv t) :
    TableInv (startStep t uid sid now rho1 rho2 fuel) := by
  unfold startStep startChallenge
  by_cases h1 : uid = ""
  · simpa [h1] using hI
  cases hdb : USER_DATABASE uid with
  | none => simpa [h1, hdb] using hI
  | some user =>
    cases hg : generateShuffledGrid secretPatternU123 rho1 rho2 fuel with
    | none => simpa [h1, hdb, hg] using hI
    | some grid =>
      simp only [h1, hdb, hg, if_neg]
      exact inv_setS t sid _ hI ⟨rfl, by show (0 : Nat) < 3; decide, rfl⟩

/-- Every reachable table satisfies the invariant. -/
theorem reachable_inv (t : SessionTable) (h : Reachable t) : TableInv t := by
  induction h with
  | init => intro p hp; cases hp
  | start t uid sid now rho1 rho2 fuel _ ih => exact inv_start t uid sid now rho1 rho2 fuel ih
  | step t sid input now _ ih => exact inv_verify t sid input now ih
  | reap t now _ ih => exact inv_cleanup t now ih

/-- In a reachable table the stored session under any key is good. -/
theorem reachable_getS_good (t : SessionTable) (h : Reachable t) (k : String)
    (s : Session) (hq : getS t k = some s) : GoodSession s :=
  reachable_inv t h (k, s) (getS_mem t k s hq)

/-! ### Branch lemmas for the verify-auth handler -/

theorem verify_invalid_len (t : SessionTable) (sid : String) (input : List String)
    (now : Nat) (h : input.length ≠ 3) :
    verify t sid input now = (.invalidRequest, t) := by
  unfold verify
  by_cases h1 : sid = ""
  · simp [h1]
  · simp [h1, h]

theorem verify_absent (t : SessionTable) (sid : String) (input : List String)
    (now : Nat) (h1 : sid ≠ "") (h2 : input.length = 3) (hq : getS t sid = none) :
    verify t sid input now = (.fail .INVALID_SESSION none, t) := by
  simp [verify, h1, h2, hq]

theorem verify_used (t : SessionTable) (sid : String) (input : List String)
    (now : Nat) (s : Session) (h1 : sid ≠ "") (h2 : input.length = 3)
    (hq : getS t sid = some s) (hu : s.used = true) :
    verify t sid input now = (.fail .SESSION_USED none, delS t sid) := by
  simp [verify, h1, h2, hq, hu]

theorem verify_expired (t : SessionTable) (sid : String) (input : List String)
    (now : Nat) (s : Session) (h1 : sid ≠ "") (h2 : input.length = 3)
    (hq : getS t sid = some s) (hu : s.used = false) (he : s.expiresAt < now) :
    verify t sid input now = (.fail .SESSION_EXPIRED none, delS t sid) := by
  simp [verify, h1, h2, hq, hu, Nat.lt_iff_add_one_le.mp he, show now > s.expiresAt from he]

theorem verify_cap (t : SessionTable) (sid : String) (input : List String)
    (now : Nat) (s : Session) (h1 : sid ≠ "") (h2 : input.length = 3)
    (hq : getS t sid = some s) (hu : s.used = false) (he : now ≤ s.expiresAt)
    (hc : s.maxAttempts ≤ s.attempts) :
    verify t sid input now = (.fail .MAX_ATTEMPTS none, delS t sid) := by
  simp [verify, h1, h2, hq, hu, show ¬ now > s.expiresAt from by omega, hc]

theorem verify_pass (t : SessionTable) (sid : String) (input : List String)
    (now : Nat) (s : Session) (h1 : sid ≠ "") (h2 : input.length = 3)
    (hq : getS t sid = some s) (hu : s.used = false) (he : now ≤ s.expiresAt)
    (hc : s.attempts < s.maxAttempts) (hm : hashVisualPattern input = s.secretHash) :
    verify t sid input now = (.pass s.userId, delS t sid) := by
  simp [verify, h1, h2, hq, hu, show ¬ now > s.expiresAt from by omega,
    show ¬ s.attempts ≥ s.maxAttempts from by omega, hm]

theorem verify_mismatch_cap (t : SessionTable) (sid : String) (input : List String)
    (now : Nat) (s : Session) (h1 : sid ≠ "") (h2 : input.length = 3)
    (hq : getS t sid = some s) (hu : s.used = false) (he : now ≤ s.expiresAt)
    (hc : s.attempts < s.maxAttempts) (hm : hashVisualPattern input ≠ s.secretHash)
    (hc2 : s.maxAttempts ≤ s.attempts + 1) :
    verify t sid input now = (.fail .MAX_ATTEMPTS none, delS t sid) := by
  simp [verify, h1, h2, hq, hu, show ¬ now > s.expiresAt from by omega,
    show ¬ s.attempts ≥ s.maxAttempts from by omega, hm, hc2]

theorem verify_mismatch (t : SessionTable) (sid : String) (input : List String)
    (now : Nat) (s : Session) (h1 : sid ≠ "") (h2 : input.length = 3)
    (hq : getS t sid = some s) (hu : s.used = false) (he : now ≤ s.expiresAt)
    (hc : s.attempts < s.maxAttempts) (hm : hashVisualPattern input ≠ s.secretHash)
    (hc2 : s.attempts + 1 < s.maxAttempts) :
    verify t sid input now =
      (.fail .INVALID_PATTERN (some (s.maxAttempts - (s.attempts + 1))),
       setS t sid { s with attempts := s.attempts + 1 }) := by
  simp [verify, h1, h2, hq, hu, show ¬ now > s.expiresAt from by omega,
    show ¬ s.attempts ≥ s.maxAttempts from by omega, hm,
    show ¬ s.attempts + 1 ≥ s.maxAttempts from by omega]

/-! ### The shuffle is a permutation -/

theorem getD_set_perm (a : String) :
    ∀ (t : List String) (m : Nat), m < t.length →
      List.Perm ((t.getD m "") :: t.set m a) (a :: t) := by
  intro t
  induction t with
  | nil => intro m hm; simp at hm
  | cons b r ih =>
    intro m hm
    cases m with
    | zero =>
      simp only [List.getD_cons_zero, List.set_cons_zero]
      exact List.Perm.swap a b r
    | succ k =>
      simp only [List.getD_cons_succ, List.set_cons_succ]
      have hk : k < r.length := by simpa using hm
      have s1 : List.Perm ((r.getD k "") :: b :: r.set k a) (b :: (r.getD k "") :: r.set k a) :=
        List.Perm.swap b _ _
      have s2 : List.Perm (b :: (r.getD k "") :: r.set k a) (b :: a :: r) :=
        (ih k hk).cons b
      have s3 : List.Perm (b :: a :: r) (a :: b :: r) := List.Perm.swap a b r
      exact (s1.trans s2).trans s3

theorem swapL_perm : ∀ (l : List String) (i j : Nat), i < l.length → j < l.length →
    List.Perm (swapL l i j) l := by
  intro l
  induction l with
  | nil => intro i j hi _; simp at hi
  | cons a r ih =>
    intro i j hi hj
    cases i with
    | zero =>
      cases j with
      | zero => simp [swapL]
      | succ m =>
        have hm : m < r.length := by simpa using hj
        simp only [swapL, List.getD_cons_succ, List.getD_cons_zero,
          List.set_cons_zero, List.set_cons_succ]
        exact getD_set_perm a r m hm
    | succ n =>
      cases j with
      | zero =>
        have hn : n < r.length := by simpa using hi
        simp only [swapL, List.getD_cons_succ, List.getD_cons_zero,
          List.set_cons_zero, List.set_cons_succ]
        exact getD_set_perm a r n hn
      | succ m =>
        have hn : n < r.length := by simpa using hi
        have hm : m < r.length := by simpa using hj
        simp only [swapL, List.getD_cons_succ, List.set_cons_succ]
        exact (ih n m hn hm).cons a

theorem fyGo_perm (rho : Nat → Nat) :
    ∀ (i k : Nat) (l : List String), i < l.length → List.Perm (fyGo rho k i l) l := by
  intro i
  induction i with
  | zero => intro k l _; simp [fyGo]
  | succ n ih =>
    intro k l hi
    have hlen : (swapL l (n + 1) (rho k % (n + 2))).length = l.length := by
      simp [swapL]
    have hmod : rho k % (n + 2) < l.length := by
      have : rho k % (n + 2) < n + 2 := Nat.mod_lt _ (by omega)
      omega
    have hswap : List.Perm (swapL l (n + 1) (rho k % (n + 2))) l :=
      swapL_perm l _ _ hi hmod
    have hrec : List.Perm (fyGo rho (k + 1) n (swapL l (n + 1) (rho k % (n + 2))))
        (swapL l (n + 1) (rho k % (n + 2))) := ih (k + 1) _ (by omega)
    show List.Perm (fyGo rho k (n + 1) l) l
    rw [fyGo]
    exact hrec.trans hswap

/-- shuffleArray permutes its argument, for every draw stream. -/
theorem shuffleArray_perm (rho : Nat → Nat) (l : List String) :
    List.Perm (shuffleArray rho l) l := by
  cases l with
  | nil => simp [shuffleArray, fyGo]
  | cons a r =>
    unfold shuffleArray
    exact fyGo_perm rho _ 0 (a :: r) (by simp)

/-! ### What the decoy-filling loop guarantees on success -/

theorem fillGrid_spec (available : List String) (rho : Nat → Nat) :
    ∀ (fuel i : Nat) (grid g : List String),
      fillGrid available rho i fuel grid = some g →
      (∀ x ∈ grid, x ∈ g) ∧ (grid.Nodup → g.Nodup) ∧
      (grid.length ≤ 9 → g.length = 9) := by
  intro fuel
  induction fuel with
  | zero => intro i grid g h; simp [fillGrid] at h
  | succ fuel ih =>
    intro i grid g h
    unfold fillGrid at h
    by_cases h9 : 9 ≤ grid.length
    · rw [if_pos h9] at h
      obtain rfl : grid = g := Option.some.inj h
      exact ⟨fun x hx => hx, fun hn => hn, fun hle => le_antisymm hle h9⟩
    rw [if_neg h9] at h
    by_cases hav : available.length = 0
    · rw [if_pos hav] at h
      exact absurd h (by simp)
    rw [if_neg hav] at h
    by_cases hmem : available.getD (rho i % available.length) "" ∈ grid
    · rw [if_pos hmem] at h
      exact ih (i + 1) grid g h
    rw [if_neg hmem] at h
    · obtain ⟨hsub, hnd, hlen⟩ := ih (i + 1) _ g h
      refine ⟨fun x hx => hsub x (List.mem_append_left _ hx), ?_, ?_⟩
      · intro hgn
        apply hnd
        have hperm := List.perm_append_singleton
          (available.getD (rho i % available.length) "") grid
        rw [hperm.nodup_iff]
        exact List.nodup_cons.mpr ⟨hmem, hgn⟩
      · intro _
        apply hlen
        have : grid.length < 9 := by omega
        simp [List.length_append]
        omega

/-- On success, the generated grid has exactly 9 pairwise distinct symbols and
contains every symbol of a duplicate-free secret exactly once. -/
theorem generate_spec (pool secret : List String) (rho1 rho2 : Nat → Nat)
    (fuel : Nat) (g : List String) (hsec : secret.Nodup) (hlen : secret.length ≤ 9)
    (h : generateShuffledGridWith pool secret rho1 rho2 fuel = some g) :
    g.length = 9 ∧ g.Nodup ∧ ∀ e ∈ secret, g.count e = 1 := by
  unfold generateShuffledGridWith at h
  cases hf : fillGrid (pool.filter (fun e => decide (e ∉ secret))) rho1 0 fuel secret with
  | none => rw [hf] at h; simp at h
  | some g0 =>
    rw [hf] at h
    simp only [Option.map_some'] at h
    obtain rfl : shuffleArray rho2 g0 = g := Option.some.inj h
    obtain ⟨hsub, hnd, hl⟩ := fillGrid_spec _ rho1 fuel 0 secret g0 hf
    have hperm := shuffleArray_perm rho2 g0
    refine ⟨by rw [hperm.length_eq]; exact hl hlen, hperm.nodup_iff.mpr (hnd hsec), ?_⟩
    intro e he
    rw [hperm.count_eq]
    exact List.count_eq_one_of_mem (hnd hsec) (hsub e he)

/-! ### Concrete demonstration data used to instantiate the theorems -/

/-- A deterministic draw stream. -/
def rhoId : Nat → Nat := fun i => i

/-- A draw stream under which the Fisher-Yates pass swaps every position with
itself, leaving the list unchanged. -/
def rhoRev : Nat → Nat := fun k => 8 - k

/-- The grid produced by the demo run of startChallenge below. -/
def demoGrid : List String :=
  ["🍎", "🎧", "🔥", "🚀", "⭐", "🔒", "🔑", "💎", "🎯"]

/-- The session created by the demo run of startChallenge below. -/
def demoSession : Session :=
  { sessionId := "S1", userId := "U123",
    secretHash := hashVisualPattern secretPatternU123, grid := demoGrid,
    createdAt := 0, expiresAt := 60000, used := false, attempts := 0,
    maxAttempts := 3 }

/-- The table produced by one start-auth call on the empty table. -/
def demoStartTable : SessionTable := startStep [] "U123" "S1" 0 rhoId rhoRev 20

/-- A well-formed 3-symbol candidate whose digest differs from the demo
secret's. -/
def wrongInput : List String := ["🚀", "🚀", "🚀"]

/-- A session sitting exactly at the attempt cap. -/
def capSession : Session := { demoSession with attempts := 3 }

theorem verify_invalid_sid (t : SessionTable) (sid : String) (input : List String)
    (now : Nat) (h : sid = "") : verify t sid input now = (.invalidRequest, t) := by
  simp [verify, h]

/-- C8: a verify-auth call whose candidate does not have exactly 3 elements is
rejected as INVALID_REQUEST before any session lookup or mutation: the
response carries no verdict and the session table is returned unchanged, for
every table, session id, and time. -/
theorem c8_input_length_precondition (t : SessionTable) (sid : String)
    (input : List String) (now : Nat) (h : input.length ≠ 3) :
    verify t sid input now = (.invalidRequest, t) :=
  verify_invalid_len t sid input now h

theorem c8_input_length_precondition_witness :
    verify [("S1", demoSession)] "S1" ["🍎"] 1 =
      (.invalidRequest, [("S1", demoSession)]) :=
  c8_input_length_precondition [("S1", demoSession)] "S1" ["🍎"] 1 (by decide)

/-- C2: against a fresh, unused, unexpired session with the fixed cap 3,
three verify-auth calls with the same wrong 3-symbol candidate return
INVALID_PATTERN with attempts_remaining 2, then 1, then MAX_ATTEMPTS while
deleting the session, and a fourth call returns INVALID_SESSION. -/
theorem c2_attempt_budget (t : SessionTable) (sid : String) (input : List String)
    (n1 n2 n3 n4 : Nat) (s : Session) (hsid : sid ≠ "") (hlen : input.length = 3)
    (hq : getS t sid = some s) (ha : s.attempts = 0) (hu : s.used = false)
    (hm : s.maxAttempts = 3) (hw : hashVisualPattern input ≠ s.secretHash)
    (h1 : n1 ≤ s.expiresAt) (h2 : n2 ≤ s.expiresAt) (h3 : n3 ≤ s.expiresAt) :
    (verify t sid input n1).1 = .fail .INVALID_PATTERN (some 2) ∧
    (verify (verify t sid input n1).2 sid input n2).1 =
      .fail .INVALID_PATTERN (some 1) ∧
    (verify (verify (verify t sid input n1).2 sid input n2).2 sid input n3).1 =
      .fail .MAX_ATTEMPTS none ∧
    getS (verify (verify (verify t sid input n1).2 sid input n2).2 sid input n3).2
      sid = none ∧
    (verify (verify (verify (verify t sid input n1).2 sid input n2).2 sid
      input n3).2 sid input n4).1 = .fail .INVALID_SESSION none := by
  have e1 := verify_mismatch t sid input n1 s hsid hlen hq hu h1 (by omega) hw
    (by omega)
  have hq1 : getS (verify t sid input n1).2 sid =
      some { s with attempts := s.attempts + 1 } := by
    rw [e1]
    exact getS_setS_self t sid _
  have e2 := verify_mismatch (verify t sid input n1).2 sid input n2
    { s with attempts := s.attempts + 1 } hsid hlen hq1 hu h2 (by simp; omega) hw
    (by simp; omega)
  have hq2 : getS (verify (verify t sid input n1).2 sid input n2).2 sid =
      some { s with attempts := s.attempts + 1 + 1 } := by
    rw [e2]
    exact getS_setS_self _ sid _
  have e3 := verify_mismatch_cap
    (verify (verify t sid input n1).2 sid input n2).2 sid input n3
    { s with attempts := s.attempts + 1 + 1 } hsid hlen hq2 hu h3
    (by simp; omega) hw (by simp; omega)
  have hq3 : getS ((verify (verify (verify t sid input n1).2 sid input n2).2 sid
      input n3)).2 sid = none := by
    rw [e3]
    exact getS_delS_self _ sid
  have e4 := verify_absent
    (verify (verify (verify t sid input n1).2 sid input n2).2 sid input n3).2
    sid input n4 hsid hlen hq3
  refine ⟨?_, ?_, ?_, hq3, ?_⟩
  · rw [e1, hm, ha]
  · rw [e2]
    simp [hm, ha]
  · rw [e3]
  · rw [e4]

theorem c2_attempt_budget_witness :
    (verify demoStartTable "S1" wrongInput 1).1 = .fail .INVALID_PATTERN (some 2) ∧
    (verify (verify demoStartTable "S1" wrongInput 1).2 "S1" wrongInput 2).1 =
      .fail .INVALID_PATTERN (some 1) ∧
    (verify (verify (verify demoStartTable "S1" wrongInput 1).2 "S1" wrongInput 2).2
      "S1" wrongInput 3).1 = .fail .MAX_ATTEMPTS none ∧
    getS (verify (verify (verify demoStartTable "S1" wrongInput 1).2 "S1"
      wrongInput 2).2 "S1" wrongInput 3).2 "S1" = none ∧
    (verify (verify (verify (verify demoStartTable "S1" wrongInput 1).2 "S1"
      wrongInput 2).2 "S1" wrongInput 3).2 "S1" wrongInput 4).1 =
      .fail .INVALID_SESSION none :=
  c2_attempt_budget demoStartTable "S1" wrongInput 1 2 3 4 demoSession
    (by decide) (by decide) (by decide) (by decide) (by decide) (by decide)
    (by decide) (by decide) (by decide) (by decide)

/-- The grid carried by an ok start-auth response. -/
def okGrid : StartResult → List String
  | .ok _ g _ => g
  | .userNotFound => []
  | .invalidRequest => []

/-- C4: when the requested user is present in the registry and the minted
session id is fresh, a completed start-auth call returns the session id, the
generated grid, and expires_in = 60, and inserts exactly one new session
record with attempts 0, used false, createdAt = now, and
expiresAt = createdAt + 60000 ms, leaving every other key unchanged. -/
theorem c4_session_creation (t : SessionTable) (uid sid : String) (now : Nat)
    (rho1 rho2 : Nat → Nat) (fuel : Nat) (u : UserRecord) (r : StartResult)
    (t' : SessionTable) (huser : USER_DATABASE uid = some u)
    (hfresh : getS t sid = none)
    (h : startChallenge t uid sid now rho1 rho2 fuel = some (r, t')) :
    r = .ok sid (okGrid r) 60 ∧
    getS t' sid = some
      { sessionId := sid, userId := uid, secretHash := u.secretHash,
        grid := okGrid r, createdAt := now, expiresAt := now + 60000,
        used := false, attempts := 0, maxAttempts := 3 } ∧
    (∀ k, k ≠ sid → getS t' k = getS t k) ∧
    t'.length = t.length + 1 := by
  have huid : uid ≠ "" := by
    intro hh
    rw [hh] at huser
    simp [USER_DATABASE] at huser
  unfold startChallenge at h
  rw [if_neg huid, huser] at h
  cases hg : generateShuffledGrid secretPatternU123 rho1 rho2 fuel with
  | none =>
    rw [hg] at h
    exact absurd h (by simp)
  | some grid =>
    rw [hg] at h
    have hh := Option.some.inj h
    injection hh with hr ht
    subst hr
    subst ht
    refine ⟨rfl, ?_, ?_, ?_⟩
    · exact getS_setS_self t sid _
    · intro k hk
      exact getS_setS_ne t sid k _ hk
    · exact length_setS_of_fresh t sid _ hfresh

theorem c4_session_creation_witness :
    getS [("S1", demoSession)] "S1" = some demoSession ∧
    getS [("S1", demoSession)] "X" = getS ([] : SessionTable) "X" ∧
    ([("S1", demoSession)] : SessionTable).length = ([] : SessionTable).length + 1 := by
  have H := c4_session_creation [] "U123" "S1" 0 rhoId rhoRev 20
    ⟨"U123", hashVisualPattern secretPatternU123⟩
    (.ok "S1" demoGrid 60) [("S1", demoSession)] (by decide) (by decide) (by decide)
  exact ⟨H.2.1, H.2.2.1 "X" (by decide), H.2.2.2⟩

/-- C5: every grid a completed start-auth call returns has exactly 9 symbols,
no duplicate symbol, and contains every symbol of the registered demo secret
pattern exactly once. -/
theorem c5_grid_contents (t : SessionTable) (uid sid : String) (now : Nat)
    (rho1 rho2 : Nat → Nat) (fuel : Nat) (sid' : String) (grid : List String)
    (expin : Nat) (t' : SessionTable)
    (h : startChallenge t uid sid now rho1 rho2 fuel = some (.ok sid' grid expin, t')) :
    grid.length = 9 ∧ grid.Nodup ∧ ∀ e ∈ secretPatternU123, grid.count e = 1 := by
  unfold startChallenge at h
  by_cases h1 : uid = ""
  · rw [if_pos h1] at h
    simp at h
  rw [if_neg h1] at h
  cases hdb : USER_DATABASE uid with
  | none =>
    rw [hdb] at h
    simp at h
  | some user =>
    rw [hdb] at h
    cases hg : generateShuffledGrid secretPatternU123 rho1 rho2 fuel with
    | none =>
      rw [hg] at h
      simp at h
    | some g0 =>
      rw [hg] at h
      have hh := Option.some.inj h
      injection hh with hr ht
      injection hr with hs1 hs2 hs3
      subst hs2
      exact generate_spec EMOJI_POOL secretPatternU123 rho1 rho2 fuel g0
        (by decide) (by decide) hg

theorem c5_grid_contents_witness :
    demoGrid.length = 9 ∧ demoGrid.count "🍎" = 1 := by
  have H := c5_grid_contents [] "U123" "S1" 0 rhoId rhoRev 20 "S1" demoGrid 60
    [("S1", demoSession)] (by decide)
  exact ⟨H.1, H.2.2 "🍎" (by decide)⟩

/-- C6: in every reachable state each stored session has attempts at most
maxAttempts (3), and a verify-auth call that reaches a stored session sitting
at the cap deletes it, whatever 3-symbol candidate was submitted. -/
theorem c6_attempt_cap :
    (∀ t : SessionTable, Reachable t → ∀ (k : String) (s : Session),
       getS t k = some s → s.attempts ≤ s.maxAttempts ∧ s.maxAttempts = 3) ∧
    (∀ (t : SessionTable) (sid : String) (input : List String) (now : Nat)
       (s : Session), sid ≠ "" → input.length = 3 → getS t sid = some s →
       s.maxAttempts ≤ s.attempts → getS (verify t sid input now).2 sid = none) := by
  constructor
  · intro t ht k s hq
    have hg := reachable_getS_good t ht k s hq
    exact ⟨le_of_lt hg.2.1, hg.2.2⟩
  · intro t sid input now s h1 h2 hq hcap
    cases hus : s.used with
    | true =>
      rw [verify_used t sid input now s h1 h2 hq hus]
      exact getS_delS_self t sid
    | false =>
      by_cases he : s.expiresAt < now
      · rw [verify_expired t sid input now s h1 h2 hq hus he]
        exact getS_delS_self t sid
      · rw [verify_cap t sid input now s h1 h2 hq hus (by omega) hcap]
        exact getS_delS_self t sid

theorem c6_attempt_cap_witness :
    (demoSession.attempts ≤ demoSession.maxAttempts ∧ demoSession.maxAttempts = 3) ∧
    getS (verify [("S1", capSession)] "S1" wrongInput 0).2 "S1" = none := by
  constructor
  · exact c6_attempt_cap.1 demoStartTable
      (Reachable.start [] "U123" "S1" 0 rhoId rhoRev 20 Reachable.init)
      "S1" demoSession (by decide)
  · exact c6_attempt_cap.2 [("S1", capSession)] "S1" wrongInput 0 capSession
      (by decide) (by decide) (by decide) (by decide)

/-- C10: in every reachable state every stored session has used = false (a
successful verification deletes the record in the very step that marks it
used), so no verify-auth call on a reachable state ever returns the
SESSION_USED outcome. -/
theorem c10_used_branch_unreachable :
    (∀ t : SessionTable, Reachable t → ∀ (k : String) (s : Session),
       getS t k = some s → s.used = false) ∧
    (∀ t : SessionTable, Reachable t → ∀ (sid : String) (input : List String)
       (now : Nat) (rem : Option Nat),
       (verify t sid input now).1 ≠ .fail .SESSION_USED rem) := by
  constructor
  · intro t ht k s hq
    exact (reachable_getS_good t ht k s hq).1
  · intro t ht sid input now rem hcontra
    by_cases h1 : sid = ""
    · rw [verify_invalid_sid t sid input now h1] at hcontra
      simp at hcontra
    by_cases h2 : input.length = 3
    swap
    · rw [verify_invalid_len t sid input now h2] at hcontra
      simp at hcontra
    cases hq : getS t sid with
    | none =>
      rw [verify_absent t sid input now h1 h2 hq] at hcontra
      simp at hcontra
    | some s =>
      have hus : s.used = false := (reachable_getS_good t ht sid s hq).1
      by_cases he : s.expiresAt < now
      · rw [verify_expired t sid input now s h1 h2 hq hus he] at hcontra
        simp at hcontra
      by_cases hcap : s.maxAttempts ≤ s.attempts
      · rw [verify_cap t sid input now s h1 h2 hq hus (by omega) hcap] at hcontra
        simp at hcontra
      by_cases hmatch : hashVisualPattern input = s.secretHash
      · rw [verify_pass t sid input now s h1 h2 hq hus (by omega) (by omega) hmatch]
          at hcontra
        simp at hcontra
      by_cases hc2 : s.maxAttempts ≤ s.attempts + 1
      · rw [verify_mismatch_cap t sid input now s h1 h2 hq hus (by omega) (by omega)
          hmatch hc2] at hcontra
        simp at hcontra
      · rw [verify_mismatch t sid input now s h1 h2 hq hus (by omega) (by omega)
          hmatch (by omega)] at hcontra
        simp at hcontra

theorem c10_used_branch_unreachable_witness :
    (verify demoStartTable "S1" secretPatternU123 1).1 ≠ .fail .SESSION_USED none :=
  c10_used_branch_unreachable.2 demoStartTable
    (Reachable.start [] "U123" "S1" 0 rhoId rhoRev 20 Reachable.init)
    "S1" secretPatternU123 1 none

/-- C3 (counterexample): a session whose expiry has passed and which the
background sweep has already removed yields INVALID_SESSION on verify, not the
SESSION_EXPIRED outcome the claim demands regardless of the sweep. -/
theorem c3_counterexample :
    (verify (cleanupExpiredSessions [("S1", demoSession)] 60001) "S1" wrongInput
      60001).1 = .fail .INVALID_SESSION none ∧
    (verify (cleanupExpiredSessions [("S1", demoSession)] 60001) "S1" wrongInput
      60001).1 ≠ .fail .SESSION_EXPIRED none := by decide

/-- C3 (amended): in every reachable state, a verify-auth call with a
well-formed candidate on a session id still stored in the table whose
expiresAt lies strictly before the current time deletes that session and
returns SESSION_EXPIRED, however many attempts remain; if the sweep already
removed the entry the call returns INVALID_SESSION instead. -/
theorem c3_expiry_enforced (t : SessionTable) (ht : Reachable t) (sid : String)
    (input : List String) (now : Nat) (s : Session) (hsid : sid ≠ "")
    (hlen : input.length = 3) (hq : getS t sid = some s)
    (hexp : s.expiresAt < now) :
    (verify t sid input now).1 = .fail .SESSION_EXPIRED none ∧
    getS (verify t sid input now).2 sid = none := by
  have hus : s.used = false := (reachable_getS_good t ht sid s hq).1
  rw [verify_expired t sid input now s hsid hlen hq hus hexp]
  exact ⟨rfl, getS_delS_self t sid⟩

theorem c3_expiry_enforced_witness :
    (verify demoStartTable "S1" wrongInput 60001).1 = .fail .SESSION_EXPIRED none ∧
    getS (verify demoStartTable "S1" wrongInput 60001).2 "S1" = none :=
  c3_expiry_enforced demoStartTable
    (Reachable.start [] "U123" "S1" 0 rhoId rhoRev 20 Reachable.init)
    "S1" wrongInput 60001 demoSession (by decide) (by decide) (by decide) (by decide)

theorem getS_delS_of_none (t : SessionTable) (k k' : String)
    (h : getS t k = none) : getS (delS t k') k = none := by
  by_cases hk : k = k'
  · rw [hk]
    exact getS_delS_self t k'
  · rw [getS_delS_ne t k' k hk]
    exact h

/-- C1 (counterexample): after a successful verification consumes the demo
session, replaying the very same call returns FAIL with INVALID_SESSION — not
the SESSION_USED error the claim names — because the pass deleted the record. -/
theorem c1_counterexample :
    (verify [("S1", demoSession)] "S1" secretPatternU123 1).1 = .pass "U123" ∧
    (verify (verify [("S1", demoSession)] "S1" secretPatternU123 1).2 "S1"
      secretPatternU123 2).1 = .fail .INVALID_SESSION none ∧
    (verify (verify [("S1", demoSession)] "S1" secretPatternU123 1).2 "S1"
      secretPatternU123 2).1 ≠ .fail .SESSION_USED none := by decide

/-- C1 (amended): a successful verification deletes the session, and once the
id is absent no later verify-auth call can return PASS: a well-formed replay
returns FAIL with INVALID_SESSION (a malformed one INVALID_REQUEST), and the
id stays absent under further verify-auth calls and sweeps. -/
theorem c1_single_use :
    (∀ (t : SessionTable) (sid : String) (input : List String) (now : Nat)
       (u : String) (t' : SessionTable),
       verify t sid input now = (.pass u, t') → getS t' sid = none) ∧
    (∀ (t : SessionTable) (sid : String), getS t sid = none →
       (∀ (input : List String) (now : Nat) (u : String),
          (verify t sid input now).1 ≠ .pass u) ∧
       (∀ (input : List String) (now : Nat), sid ≠ "" → input.length = 3 →
          (verify t sid input now).1 = .fail .INVALID_SESSION none) ∧
       (∀ (sid' : String) (input : List String) (now : Nat),
          getS (verify t sid' input now).2 sid = none) ∧
       (∀ now : Nat, getS (cleanupExpiredSessions t now) sid = none)) := by
  constructor
  · intro t sid input now u t' h
    by_cases h1 : sid = ""
    · rw [verify_invalid_sid t sid input now h1] at h
      simp at h
    by_cases h2 : input.length = 3
    swap
    · rw [verify_invalid_len t sid input now h2] at h
      simp at h
    cases hq : getS t sid with
    | none =>
      rw [verify_absent t sid input now h1 h2 hq] at h
      simp at h
    | some s =>
      cases hus : s.used with
      | true =>
        rw [verify_used t sid input now s h1 h2 hq hus] at h
        simp at h
      | false =>
        by_cases he : s.expiresAt < now
        · rw [verify_expired t sid input now s h1 h2 hq hus he] at h
          simp at h
        by_cases hcap : s.maxAttempts ≤ s.attempts
        · rw [verify_cap t sid input now s h1 h2 hq hus (by omega) hcap] at h
          simp at h
        by_cases hmatch : hashVisualPattern input = s.secretHash
        · rw [verify_pass t sid input now s h1 h2 hq hus (by omega) (by omega)
            hmatch] at h
          have ht' : delS t sid = t' := congrArg Prod.snd h
          rw [← ht']
          exact getS_delS_self t sid
        by_cases hc2 : s.maxAttempts ≤ s.attempts + 1
        · rw [verify_mismatch_cap t sid input now s h1 h2 hq hus (by omega)
            (by omega) hmatch hc2] at h
          simp at h
        · rw [verify_mismatch t sid input now s h1 h2 hq hus (by omega) (by omega)
            hmatch (by omega)] at h
          simp at h
  · intro t sid hq
    refine ⟨?_, ?_, ?_, ?_⟩
    · intro input now u hcontra
      by_cases h1 : sid = ""
      · rw [verify_invalid_sid t sid input now h1] at hcontra
        simp at hcontra
      by_cases h2 : input.length = 3
      swap
      · rw [verify_invalid_len t sid input now h2] at hcontra
        simp at hcontra
      · rw [verify_absent t sid input now h1 h2 hq] at hcontra
        simp at hcontra
    · intro input now h1 h2
      rw [verify_absent t sid input now h1 h2 hq]
    · intro sid' input now
      rcases verify_state_cases t sid' input now with h | h | ⟨s, hq', hus, hlt, h⟩
      · rw [h]
        exact hq
      · rw [h]
        exact getS_delS_of_none t sid sid' hq
      · rw [h]
        have hne : sid ≠ sid' := by
          intro hh
          rw [hh, hq'] at hq
          exact Option.noConfusion hq
        rw [getS_setS_ne t sid' sid _ hne]
        exact hq
    · intro now
      exact getS_cleanup_none t now sid hq

theorem c1_single_use_witness :
    getS (verify [("S1", demoSession)] "S1" secretPatternU123 1).2 "S1" = none ∧
    (verify ([] : SessionTable) "S1" secretPatternU123 5).1 =
      .fail .INVALID_SESSION none := by
  constructor
  · exact c1_single_use.1 [("S1", demoSession)] "S1" secretPatternU123 1 "U123"
      (verify [("S1", demoSession)] "S1" secretPatternU123 1).2 (by decide)
  · exact (c1_single_use.2 [] "S1" (by decide)).2.1 secretPatternU123 5
      (by decide) (by decide)

/-- True exactly on responses that carry the FAIL verdict. -/
def hasFailVerdict : VerifyResult → Bool
  | .fail _ _ => true
  | .pass _ => false
  | .invalidRequest => false

/-- C7 (counterexample): a malformed candidate (fewer than 3 symbols) is a
failing outcome whose response carries the INVALID_REQUEST kind but no FAIL
verdict, so not every failure path returns both. -/
theorem c7_counterexample :
    (verify [("S1", demoSession)] "S1" ["🍎"] 1).1 = .invalidRequest ∧
    hasFailVerdict (verify [("S1", demoSession)] "S1" ["🍎"] 1).1 = false := by
  decide

/-- C7 (amended): every verify-auth response is PASS, or FAIL paired with one
of the five documented error kinds (INVALID_PATTERN always carrying
attempts_remaining, the others never), or — exactly for malformed requests —
INVALID_REQUEST without a verdict. -/
theorem c7_failure_shape (t : SessionTable) (sid : String) (input : List String)
    (now : Nat) :
    (∃ u, (verify t sid input now).1 = .pass u) ∨
    (verify t sid input now).1 = .fail .INVALID_SESSION none ∨
    (verify t sid input now).1 = .fail .SESSION_USED none ∨
    (verify t sid input now).1 = .fail .SESSION_EXPIRED none ∨
    (verify t sid input now).1 = .fail .MAX_ATTEMPTS none ∨
    (∃ n, (verify t sid input now).1 = .fail .INVALID_PATTERN (some n)) ∨
    ((verify t sid input now).1 = .invalidRequest ∧ (sid = "" ∨ input.length ≠ 3)) := by
  by_cases h1 : sid = ""
  · rw [verify_invalid_sid t sid input now h1]
    exact Or.inr (Or.inr (Or.inr (Or.inr (Or.inr (Or.inr ⟨rfl, Or.inl h1⟩)))))
  by_cases h2 : input.length = 3
  swap
  · rw [verify_invalid_len t sid input now h2]
    exact Or.inr (Or.inr (Or.inr (Or.inr (Or.inr (Or.inr ⟨rfl, Or.inr h2⟩)))))
  cases hq : getS t sid with
  | none =>
    rw [verify_absent t sid input now h1 h2 hq]
    exact Or.inr (Or.inl rfl)
  | some s =>
    cases hus : s.used with
    | true =>
      rw [verify_used t sid input now s h1 h2 hq hus]
      exact Or.inr (Or.inr (Or.inl rfl))
    | false =>
      by_cases he : s.expiresAt < now
      · rw [verify_expired t sid input now s h1 h2 hq hus he]
        exact Or.inr (Or.inr (Or.inr (Or.inl rfl)))
      by_cases hcap : s.maxAttempts ≤ s.attempts
      · rw [verify_cap t sid input now s h1 h2 hq hus (by omega) hcap]
        exact Or.inr (Or.inr (Or.inr (Or.inr (Or.inl rfl))))
      by_cases hmatch : hashVisualPattern input = s.secretHash
      · rw [verify_pass t sid input now s h1 h2 hq hus (by omega) (by omega) hmatch]
        exact Or.inl ⟨s.userId, rfl⟩
      by_cases hc2 : s.maxAttempts ≤ s.attempts + 1
      · rw [verify_mismatch_cap t sid input now s h1 h2 hq hus (by omega) (by omega)
          hmatch hc2]
        exact Or.inr (Or.inr (Or.inr (Or.inr (Or.inl rfl))))
      · rw [verify_mismatch t sid input now s h1 h2 hq hus (by omega) (by omega)
          hmatch (by omega)]
        exact Or.inr (Or.inr (Or.inr (Or.inr (Or.inr (Or.inl
          ⟨s.maxAttempts - (s.attempts + 1), rfl⟩)))))

/-! ### Termination of the decoy-filling loop under a fair draw stream -/

/-- A draw stream is fair for bound n when, from any point on, it eventually
produces every residue below n.  A genuinely random stream of
crypto.randomInt draws has this property with probability 1. -/
def Fair (rho : Nat → Nat) (n : Nat) : Prop :=
  ∀ i j, j < n → ∃ k, i ≤ k ∧ rho k % n = j

/-- Appending a fresh pool symbol to the grid shrinks the pool's eligible
remainder by exactly one, for a duplicate-free pool. -/
theorem filter_drop_one (grid : List String) (e : String) (he : e ∉ grid) :
    ∀ L : List String, L.Nodup → e ∈ L →
      (L.filter (fun x => decide (x ∉ grid ++ [e]))).length + 1 =
      (L.filter (fun x => decide (x ∉ grid))).length := by
  intro L
  induction L with
  | nil =>
    intro _ hmem
    simp at hmem
  | cons a r ih =>
    intro hnd hmem
    obtain ⟨har, hrnd⟩ := List.nodup_cons.1 hnd
    rw [List.filter_cons, List.filter_cons]
    rcases List.mem_cons.1 hmem with rfl | hmr
    · have h1 : (decide (e ∉ grid ++ [e])) = false := by simp
      have h2 : (decide (e ∉ grid)) = true := by simpa using he
      rw [h1, h2]
      have hfr : r.filter (fun x => decide (x ∉ grid ++ [e])) =
          r.filter (fun x => decide (x ∉ grid)) := by
        apply List.filter_congr
        intro x hx
        have hxe : x ≠ e := fun hh => har (hh ▸ hx)
        apply decide_eq_decide.mpr
        simp [List.mem_append, hxe]
      rw [if_neg (by simp : ¬(false = true)), if_pos rfl, hfr, List.length_cons]
    · have hae : a ≠ e := fun hh => har (hh ▸ hmr)
      have hsame : (decide (a ∉ grid ++ [e])) = (decide (a ∉ grid)) := by
        apply decide_eq_decide.mpr
        simp [List.mem_append, hae]
      rw [hsame]
      have := ih hrnd hmr
      cases hcase : (decide (a ∉ grid)) with
      | true =>
        rw [if_pos rfl, if_pos rfl, List.length_cons, List.length_cons]
        omega
      | false =>
        rw [if_neg (by simp : ¬(false = true)), if_neg (by simp : ¬(false = true))]
        exact this

/-- Under a fair draw stream, the filling loop reaches 9 symbols whenever
enough eligible pool symbols remain. -/
theorem fillGrid_terminates (available : List String) (hav : available.Nodup)
    (rho : Nat → Nat) (hfair : Fair rho available.length) :
    ∀ (m : Nat) (grid : List String) (i : Nat),
      grid.length ≤ 9 → 9 - grid.length = m →
      9 - grid.length ≤ (available.filter (fun x => decide (x ∉ grid))).length →
      ∃ fuel g, fillGrid available rho i fuel grid = some g ∧ g.length = 9 := by
  intro m
  induction m with
  | zero =>
    intro grid i h9 hm _
    refine ⟨1, grid, ?_, by omega⟩
    unfold fillGrid
    rw [if_pos (by omega)]
  | succ m ihm =>
    intro grid i h9 hm hcnt
    have hlt : grid.length < 9 := by omega
    have hfne : available.filter (fun x => decide (x ∉ grid)) ≠ [] := by
      intro hnil
      rw [hnil] at hcnt
      simp at hcnt
      omega
    obtain ⟨x, hx⟩ := List.exists_mem_of_ne_nil _ hfne
    have hxa : x ∈ available := (List.mem_filter.1 hx).1
    have hxg : x ∉ grid := by
      have := (List.mem_filter.1 hx).2
      simpa using this
    obtain ⟨j, hj, hxj⟩ := List.mem_iff_getElem.1 hxa
    have hnz : ¬ available.length = 0 := by omega
    have push : ∀ i' : Nat,
        available.getD (rho i' % available.length) "" ∉ grid →
        ∃ fuel g, fillGrid available rho i' fuel grid = some g ∧ g.length = 9 := by
      intro i' hp
      have hmod : rho i' % available.length < available.length :=
        Nat.mod_lt _ (by omega)
      have hpa : available.getD (rho i' % available.length) "" ∈ available := by
        rw [List.getD_eq_getElem _ _ hmod]
        exact List.getElem_mem hmod
      have hdrop := filter_drop_one grid _ hp available hav hpa
      have hlen2 : (grid ++ [available.getD (rho i' % available.length) ""]).length
          = grid.length + 1 := by simp
      obtain ⟨fuel, g, hfg, hgl⟩ := ihm
        (grid ++ [available.getD (rho i' % available.length) ""]) (i' + 1)
        (by omega) (by omega) (by omega)
      refine ⟨fuel + 1, g, ?_, hgl⟩
      unfold fillGrid
      rw [if_neg (by omega), if_neg hnz, if_neg hp]
      exact hfg
    obtain ⟨k, hik, hk⟩ := hfair i j hj
    have inner : ∀ d i' : Nat, i' + d = k →
        ∃ fuel g, fillGrid available rho i' fuel grid = some g ∧ g.length = 9 := by
      intro d
      induction d with
      | zero =>
        intro i' hi'
        have hik' : i' = k := by omega
        subst hik'
        apply push
        rw [hk, List.getD_eq_getElem _ _ hj, hxj]
        exact hxg
      | succ d ihd =>
        intro i' hi'
        by_cases hp : available.getD (rho i' % available.length) "" ∈ grid
        · obtain ⟨fuel, g, hfg, hgl⟩ := ihd (i' + 1) (by omega)
          refine ⟨fuel + 1, g, ?_, hgl⟩
          unfold fillGrid
          rw [if_neg (by omega), if_neg hnz, if_pos hp]
          exact hfg
        · exact push i' hp
    exact inner (k - i) i (by omega)

/-- When fewer distinct eligible pool symbols exist than slots to fill, the
filling loop can never reach 9 symbols: it fails for every stream and fuel. -/
theorem fillGrid_insufficient (available : List String) (rho : Nat → Nat) :
    ∀ (fuel i : Nat) (grid : List String),
      grid.length + (available.dedup.filter (fun x => decide (x ∉ grid))).length < 9 →
      fillGrid available rho i fuel grid = none := by
  intro fuel
  induction fuel with
  | zero =>
    intro i grid _
    rfl
  | succ fuel ih =>
    intro i grid hlt
    unfold fillGrid
    rw [if_neg (by omega)]
    by_cases hz : available.length = 0
    · rw [if_pos hz]
    · rw [if_neg hz]
      by_cases hp : available.getD (rho i % available.length) "" ∈ grid
      · rw [if_pos hp]
        exact ih (i + 1) grid hlt
      · rw [if_neg hp]
        apply ih (i + 1)
        have hmod : rho i % available.length < available.length :=
          Nat.mod_lt _ (by omega)
        have hpa : available.getD (rho i % available.length) "" ∈ available := by
          rw [List.getD_eq_getElem _ _ hmod]
          exact List.getElem_mem hmod
        have hpd : available.getD (rho i % available.length) "" ∈ available.dedup :=
          List.mem_dedup.2 hpa
        have hdrop := filter_drop_one grid _ hp available.dedup
          (List.nodup_dedup available) hpd
        have hlen2 : (grid ++ [available.getD (rho i % available.length) ""]).length
            = grid.length + 1 := by simp
        omega

theorem generate_insufficient (pool secret : List String) (rho1 rho2 : Nat → Nat)
    (fuel : Nat)
    (h : ((pool.filter (fun e => decide (e ∉ secret))).dedup).length <
      9 - secret.length) :
    generateShuffledGridWith pool secret rho1 rho2 fuel = none := by
  have hsame : (pool.filter (fun e => decide (e ∉ secret))).dedup.filter
      (fun x => decide (x ∉ secret)) =
      (pool.filter (fun e => decide (e ∉ secret))).dedup := by
    apply List.filter_eq_self.mpr
    intro x hx
    exact (List.mem_filter.1 (List.mem_dedup.1 hx)).2
  have hcond : secret.length + ((pool.filter (fun e => decide (e ∉ secret))).dedup.filter
      (fun x => decide (x ∉ secret))).length < 9 := by
    rw [hsame]
    omega
  unfold generateShuffledGridWith
  rw [fillGrid_insufficient _ rho1 fuel 0 secret hcond]
  rfl

/-- The identity stream is fair for every positive bound. -/
theorem fair_rhoId (n : Nat) (hn : 0 < n) : Fair rhoId n := by
  intro i j hj
  refine ⟨n * (i + 1) + j, ?_, ?_⟩
  · have h1 : i + 1 ≤ n * (i + 1) := Nat.le_mul_of_pos_left _ hn
    omega
  · show (n * (i + 1) + j) % n = j
    rw [Nat.mul_add_mod, Nat.mod_eq_of_lt hj]

/-- C9: for every decoy pool of distinct symbols and secret of at most 9
symbols, the grid generator terminates with a 9-symbol grid under any fair
draw stream whenever the pool holds at least 9 - len(secret) symbols outside
the secret, and it never produces a grid — for any stream and any fuel — when
the pool holds fewer distinct eligible symbols than that. -/
theorem c9_generator_totality :
    (∀ (pool secret : List String) (rho1 rho2 : Nat → Nat),
       pool.Nodup → secret.length ≤ 9 →
       9 - secret.length ≤ (pool.filter (fun e => decide (e ∉ secret))).length →
       Fair rho1 (pool.filter (fun e => decide (e ∉ secret))).length →
       ∃ fuel g, generateShuffledGridWith pool secret rho1 rho2 fuel = some g ∧
         g.length = 9) ∧
    (∀ (pool secret : List String) (rho1 rho2 : Nat → Nat) (fuel : Nat),
       ((pool.filter (fun e => decide (e ∉ secret))).dedup).length <
         9 - secret.length →
       generateShuffledGridWith pool secret rho1 rho2 fuel = none) := by
  constructor
  · intro pool secret rho1 rho2 hp hs9 hcnt hfair
    have hav : (pool.filter (fun e => decide (e ∉ secret))).Nodup := hp.filter _
    have hinit : (pool.filter (fun e => decide (e ∉ secret))).filter
        (fun x => decide (x ∉ secret)) =
        pool.filter (fun e => decide (e ∉ secret)) := by
      apply List.filter_eq_self.mpr
      intro x hx
      exact (List.mem_filter.1 hx).2
    obtain ⟨fuel, g0, hf, hl⟩ := fillGrid_terminates _ hav rho1 hfair
      (9 - secret.length) secret 0 hs9 rfl (by rw [hinit]; exact hcnt)
    refine ⟨fuel, shuffleArray rho2 g0, ?_, ?_⟩
    · unfold generateShuffledGridWith
      rw [hf]
      rfl
    · rw [(shuffleArray_perm rho2 g0).length_eq]
      exact hl
  · intro pool secret rho1 rho2 fuel h
    exact generate_insufficient pool secret rho1 rho2 fuel h

theorem c9_generator_totality_witness :
    (∃ fuel g, generateShuffledGridWith EMOJI_POOL secretPatternU123 rhoId rhoRev
       fuel = some g ∧ g.length = 9) ∧
    generateShuffledGridWith [] [] rhoId rhoId 5 = none := by
  constructor
  · exact c9_generator_totality.1 EMOJI_POOL secretPatternU123 rhoId rhoRev
      (by decide) (by decide) (by decide) (fair_rhoId _ (by decide))
  · exact c9_generator_totality.2 [] [] rhoId rhoId 5 (by decide)
